import Mathlib

/-!
Verification model of the OSS HTTP gateway (`src/main.go`).

The program is a Gin HTTP server exposing object-storage operations
(existence check, download, upload, delete, list) over the Aliyun OSS SDK.
Each route handler is embedded here as a pure function of the request
parameters and of the results the SDK calls return; the external object
store itself is modelled as a key/value map with the standard store
contract (metadata succeeds exactly on present keys, absent keys give a
structured NoSuchKey service error, put overwrites, delete removes).
-/

/-- Errors an SDK call can return: a structured store error
(`*oss.ServiceError`, carrying `Code` and `Message`) or any other error
(transport/network), carrying only its `Error()` string. -/
inductive OssErr where
  | serviceError (code message : String)
  | transportError (message : String)
deriving DecidableEq

/-- Rendering of an error value, modelling the string Go's `err.Error()`
produces when a handler formats the error with `%v`. -/
def OssErr.render : OssErr → String
  | .serviceError code msg =>
      "oss: service returned error: ErrorCode=" ++ code ++ ", ErrorMessage=" ++ msg
  | .transportError msg => msg

/-- A JSON value appearing in a handler response body: the handlers only
ever emit strings and one array of strings (the `objects` field of list). -/
inductive JsonVal where
  | str (s : String)
  | arr (xs : List String)
deriving DecidableEq

/-- An HTTP reply a handler sends: status code, response headers set with
`c.Header`, and the fields of the JSON body passed to `c.JSON`. -/
structure HttpReply where
  status : Nat
  headers : List (String × String)
  jsonFields : List (String × JsonVal)
deriving DecidableEq

/-- Look a response header up by name. -/
def HttpReply.header (r : HttpReply) (k : String) : Option String :=
  (r.headers.find? (fun p => p.1 = k)).map (fun p => p.2)

/-- What a handler invocation does observably: either it sends an HTTP
reply, or it calls `log.Fatalf` and the whole process terminates. -/
inductive Outcome where
  | response (r : HttpReply)
  | fatal (msg : String)
deriving DecidableEq

/-- Object metadata as the SDK returns it: Go's `http.Header`, a map from
header name to a list of values; `meta["Content-Length"]` is such a list. -/
def ObjMeta := List (String × List String)

/-- Go map indexing on `http.Header`: the value slice for the key, the nil
(empty) slice when the key is absent. -/
def ObjMeta.get (m : ObjMeta) (key : String) : List String :=
  match m.find? (fun p => p.1 = key) with
  | some p => p.2
  | none => []

/-- The calls a handler issues against the bucket. -/
inductive StoreCall where
  | getObjectMeta (key : String)
  | getObject (key : String)
  | putObject (key : String) (content : List Nat)
  | deleteObject (key : String)
  | listObjects (marker : String)
deriving DecidableEq

/-- Whether a store call mutates the set of stored objects. -/
def StoreCall.isMutation : StoreCall → Bool
  | .putObject _ _ => true
  | .deleteObject _ => true
  | _ => false

/-- The external object store: a bucket mapping keys to object contents
(byte sequences). The gateway holds no state of its own; this collaborator
is the sole source of truth. -/
def Store := String → Option (List Nat)

/-- Store contract for `PutObject`: overwrite or insert under the key. -/
def Store.putObject (s : Store) (key : String) (content : List Nat) : Store :=
  fun k => if k = key then some content else s k

/-- Store contract for `DeleteObject`: remove the key (idempotent). -/
def Store.deleteObject (s : Store) (key : String) : Store :=
  fun k => if k = key then none else s k

/-- Store contract for `GetObjectMeta`: metadata (with the object's
Content-Length in bytes) when the key is present, a structured service
error with code `NoSuchKey` when it is absent. -/
def Store.getObjectMeta (s : Store) (key : String) : Except OssErr ObjMeta :=
  match s key with
  | some content => .ok [("Content-Length", [toString content.length])]
  | none => .error (.serviceError "NoSuchKey" "The specified key does not exist.")

/-- The effect of one store call on the bucket contents; queries leave the
bucket untouched. -/
def StoreCall.apply (s : Store) : StoreCall → Store
  | .putObject k c => s.putObject k c
  | .deleteObject k => s.deleteObject k
  | _ => s

/-- Handler body of `GET /isexist/:name` (src/main.go lines 53-81), as a
function of the result of the one `bucket.GetObjectMeta(name)` call: a
`NoSuchKey` service error maps to 200 "does not exist", any other service
error to 500 with the store's `Message`, a non-store error to 500 with the
raw error string, and success to 200 "exists". -/
def isexistHandler (name : String) (metaRes : Except OssErr ObjMeta) : Outcome :=
  match metaRes with
  | .error err =>
    match err with
    | .serviceError code msg =>
      if code = "NoSuchKey" then
        .response ⟨200, [], [("message", .str ("Object \x27" ++ name ++ "\x27 does not exist"))]⟩
      else
        .response ⟨500, [], [("message", .str ("Error checking object: " ++ msg))]⟩
    | .transportError msg =>
      .response ⟨500, [], [("message", .str ("Error: " ++ msg))]⟩
  | .ok _ =>
    .response ⟨200, [], [("message", .str ("Object \x27" ++ name ++ "\x27 exists"))]⟩

/-- The existence-check operation run against the store model: one
metadata query, no other store call. -/
def isexistOp (s : Store) (name : String) : Outcome × List StoreCall :=
  (isexistHandler name (s.getObjectMeta name), [.getObjectMeta name])

/-- C1: the existence check returns 200 "exists" on metadata success,
200 "does not exist" on a NoSuchKey service error, 500 with the store's
error detail on any other service error, 500 with the raw error string on
a non-store error, and never returns status 404. -/
theorem isexist_status_mapping (name : String) :
    (∀ meta : ObjMeta, isexistHandler name (.ok meta) =
      .response ⟨200, [], [("message", .str ("Object \x27" ++ name ++ "\x27 exists"))]⟩) ∧
    (∀ msg, isexistHandler name (.error (.serviceError "NoSuchKey" msg)) =
      .response ⟨200, [], [("message", .str ("Object \x27" ++ name ++ "\x27 does not exist"))]⟩) ∧
    (∀ code msg, code ≠ "NoSuchKey" →
      isexistHandler name (.error (.serviceError code msg)) =
        .response ⟨500, [], [("message", .str ("Error checking object: " ++ msg))]⟩) ∧
    (∀ msg, isexistHandler name (.error (.transportError msg)) =
      .response ⟨500, [], [("message", .str ("Error: " ++ msg))]⟩) ∧
    (∀ metaRes r, isexistHandler name metaRes = .response r → r.status ≠ 404) := by
  refine ⟨fun meta => rfl, fun msg => by simp [isexistHandler],
    fun code msg hcode => by simp [isexistHandler, hcode],
    fun msg => rfl, fun metaRes r hr => ?_⟩
  match metaRes with
  | .ok meta => simp [isexistHandler] at hr; simp [← hr]
  | .error (.transportError msg) => simp [isexistHandler] at hr; simp [← hr]
  | .error (.serviceError code msg) =>
    by_cases hc : code = "NoSuchKey" <;>
      simp [isexistHandler, hc] at hr <;> simp [← hr]

instance {ε α : Type} [DecidableEq ε] [DecidableEq α] : DecidableEq (Except ε α) :=
  fun x y =>
    match x, y with
    | .ok a, .ok b =>
      if h : a = b then isTrue (by rw [h]) else isFalse fun hh => h (Except.ok.inj hh)
    | .error a, .error b =>
      if h : a = b then isTrue (by rw [h]) else isFalse fun hh => h (Except.error.inj hh)
    | .ok _, .error _ => isFalse fun hh => Except.noConfusion hh
    | .error _, .ok _ => isFalse fun hh => Except.noConfusion hh

/-- The uploaded multipart file as the handler sees it: `file.Filename`
and the result of `file.Open()` (the content when opening succeeds, the
error string otherwise). -/
structure FormFile where
  filename : String
  openResult : Except String (List Nat)
deriving DecidableEq

/-- Handler body of `POST /upload` (src/main.go lines 134-162), as a
function of the form-file lookup result and of an injected `PutObject`
failure (`none` means the put succeeds). A missing `file` field gives 400;
a failed `file.Open()` calls `log.Fatalf` (process-fatal); a failed
`PutObject` calls `log.Fatalf` (process-fatal); success gives 200. The
second component is the trace of store calls issued. -/
def uploadHandler (formFile : Option FormFile) (putErr : Option OssErr) :
    Outcome × List StoreCall :=
  match formFile with
  | none => (.response ⟨400, [], [("message", .str "Failed to get file")]⟩, [])
  | some file =>
    let objectName := file.filename
    match file.openResult with
    | .error e => (.fatal ("Failed to open file: " ++ e), [])
    | .ok content =>
      match putErr with
      | some e => (.fatal ("Failed to fetch URL: " ++ e.render),
                   [.putObject objectName content])
      | none => (.response ⟨200, [], [("message", .str "File uploaded successfully")]⟩,
                 [.putObject objectName content])

/-- The upload operation run against the store model: the store's put
succeeds and the issued calls are applied to the bucket. -/
def uploadOp (s : Store) (formFile : Option FormFile) : Outcome × Store :=
  let r := uploadHandler formFile none
  (r.1, r.2.foldl StoreCall.apply s)

/-- Handler body of `DELETE /delete/:object` (src/main.go lines 164-182),
as a function of an injected `DeleteObject` failure (`none` = success). -/
def deleteHandler (objectName : String) (delErr : Option OssErr) : Outcome :=
  match delErr with
  | some e =>
    .response ⟨500, [], [("status", .str "error"),
      ("message", .str ("Failed to delete object: " ++ e.render))]⟩
  | none =>
    .response ⟨200, [], [("status", .str "success"),
      ("message", .str ("Object \x27" ++ objectName ++ "\x27 deleted successfully"))]⟩

/-- The delete operation run against the store model: the store's delete
is idempotent and always succeeds, and the key is removed. -/
def deleteOp (s : Store) (objectName : String) : Outcome × Store :=
  (deleteHandler objectName none, s.deleteObject objectName)

/-- C2: uploading a file named `f` and then checking existence of `f`
yields the "exists" outcome; uploading `f`, deleting `f`, then checking
existence of `f` yields the "does not exist" outcome again, for every
initial store. -/
theorem upload_isexist_roundtrip (s : Store) (f : FormFile) (content : List Nat)
    (hopen : f.openResult = .ok content) :
    ((isexistOp (uploadOp s (some f)).2 f.filename).1 =
      .response ⟨200, [],
        [("message", .str ("Object \x27" ++ f.filename ++ "\x27 exists"))]⟩) ∧
    ((isexistOp (deleteOp (uploadOp s (some f)).2 f.filename).2 f.filename).1 =
      .response ⟨200, [],
        [("message", .str ("Object \x27" ++ f.filename ++ "\x27 does not exist"))]⟩) := by
  constructor
  · simp [isexistOp, uploadOp, uploadHandler, hopen, StoreCall.apply,
      Store.getObjectMeta, Store.putObject, isexistHandler]
  · simp [isexistOp, uploadOp, uploadHandler, hopen, deleteOp, StoreCall.apply,
      Store.getObjectMeta, Store.putObject, Store.deleteObject, isexistHandler]

/-- Witness for C2 at a concrete input: the empty store and a file named
"notes.txt" with content [1, 2, 3]. -/
theorem upload_isexist_roundtrip_witness :
    ((isexistOp (uploadOp (fun _ => none) (some ⟨"notes.txt", .ok [1, 2, 3]⟩)).2
        "notes.txt").1 =
      .response ⟨200, [],
        [("message", .str "Object \x27notes.txt\x27 exists")]⟩) ∧
    ((isexistOp (deleteOp (uploadOp (fun _ => none)
          (some ⟨"notes.txt", .ok [1, 2, 3]⟩)).2 "notes.txt").2 "notes.txt").1 =
      .response ⟨200, [],
        [("message", .str "Object \x27notes.txt\x27 does not exist")]⟩) :=
  upload_isexist_roundtrip (fun _ => none) ⟨"notes.txt", .ok [1, 2, 3]⟩ [1, 2, 3] rfl

/-- C7: an upload request with no `file` field in the multipart form gets
status 400 with body message "Failed to get file", and no store call is
issued, whatever the store would have answered. -/
theorem upload_missing_file_field (putErr : Option OssErr) :
    uploadHandler none putErr =
      (.response ⟨400, [], [("message", .str "Failed to get file")]⟩, []) := rfl

/-- C8: a successful upload stores the content under a key equal exactly
to the uploaded file's filename (the trace shows a put at that very key),
other keys are untouched, and a second upload under the same name
overwrites the first (last write wins). -/
theorem upload_key_is_filename (s : Store) (f g : FormFile)
    (c c2 : List Nat) (hopen : f.openResult = .ok c)
    (hname : g.filename = f.filename) (hopen2 : g.openResult = .ok c2) :
    ((uploadHandler (some f) none).2 = [.putObject f.filename c]) ∧
    ((uploadOp s (some f)).2 f.filename = some c) ∧
    (∀ k, k ≠ f.filename → (uploadOp s (some f)).2 k = s k) ∧
    ((uploadOp (uploadOp s (some f)).2 (some g)).2 f.filename = some c2) := by
  refine ⟨by simp [uploadHandler, hopen], ?_, ?_, ?_⟩
  · simp [uploadOp, uploadHandler, hopen, StoreCall.apply, Store.putObject]
  · intro k hk
    simp [uploadOp, uploadHandler, hopen, StoreCall.apply, Store.putObject, hk]
  · simp [uploadOp, uploadHandler, hopen, hopen2, hname, StoreCall.apply,
      Store.putObject]

/-- Witness for C8 at a concrete input: uploading "a.bin" with content
[7] and then with content [9] on the empty store. -/
theorem upload_key_is_filename_witness :
    ((uploadHandler (some ⟨"a.bin", .ok [7]⟩) none).2 = [.putObject "a.bin" [7]]) ∧
    ((uploadOp (fun _ => none) (some ⟨"a.bin", .ok [7]⟩)).2 "a.bin" = some [7]) ∧
    (∀ k, k ≠ "a.bin" →
      (uploadOp (fun _ => none) (some ⟨"a.bin", .ok [7]⟩)).2 k = (fun _ => none : Store) k) ∧
    ((uploadOp (uploadOp (fun _ => none) (some ⟨"a.bin", .ok [7]⟩)).2
        (some ⟨"a.bin", .ok [9]⟩)).2 "a.bin" = some [9]) :=
  upload_key_is_filename (fun _ => none) ⟨"a.bin", .ok [7]⟩ ⟨"a.bin", .ok [9]⟩
    [7] [9] rfl rfl rfl

/-- Go's `path/filepath.Ext` scan, over the reversed character list of the
path, carrying the characters already passed (in order): stops with ""
at a path separator or at the start, and returns the suffix from the
final dot when it meets one. -/
def extFromRev : List Char → List Char → String
  | [], _ => ""
  | c :: rest, acc =>
    if c = '/' then ""
    else if c = '.' then String.mk (c :: acc)
    else extFromRev rest (c :: acc)

/-- Go's `path/filepath.Ext`: the suffix beginning at the final dot in the
final slash-separated element of the path; empty when there is no dot. -/
def filepathExt (path : String) : String :=
  extFromRev path.data.reverse []

/-- Extension resolution of `GET /download/:object` (src/main.go lines
86-90): the key's extension, or ".bin" when the key has none. -/
def resolveExt (objectName : String) : String :=
  let ext := filepathExt objectName
  if ext = "" then ".bin" else ext

/-- The 62-character alphanumeric charset of `generateRandomFilename`
(src/main.go line 246). -/
def charset : List Char :=
  "abcdefghijklmnopqrstuvwxyzABCDEFGHIJKLMNOPQRSTUVWXYZ0123456789".data

theorem charset_length : charset.length = 62 := rfl

/-- The 10-character random part of the filename: ten draws of
`charset[rand.Intn(len(charset))]`, the random source modelled as a
stream of indices below 62. -/
def randomBody (rnd : Nat → Fin 62) : List Char :=
  (List.range 10).map fun i => charset.get ((rnd i).cast charset_length.symm)

/-- `generateRandomFilename` (src/main.go lines 241-258):
`fmt.Sprintf("%d_%s%s", timestamp, string(filename), ext)` — the Unix
timestamp in seconds (nonnegative, rendered in decimal), an underscore,
the 10 random charset characters, then the extension. -/
def generateRandomFilename (timestamp : Nat) (rnd : Nat → Fin 62) (ext : String) : String :=
  toString timestamp ++ "_" ++ String.mk (randomBody rnd) ++ ext

/-- Go's `fmt.Sprintf("%d", v)` when `v` is a `[]string` (a slice, not an
integer): each element is rendered as a bad-verb diagnostic
`%!d(string=...)` and the slice is bracketed with space-separated
elements. -/
def goSprintfDStrings (xs : List String) : String :=
  "[" ++ String.intercalate " " (xs.map (fun s => "%!d(string=" ++ s ++ ")")) ++ "]"

/-- Handler body of `GET /download/:object` (src/main.go lines 84-132), as
a function of the request key, the environment's `mime.TypeByExtension`
table, the clock and random stream, the `GetObjectMeta` result, the
`GetObject` result and whether the `io.Copy` to the client succeeds.
Metadata failure gives 500; content-fetch failure calls `log.Fatalf`
(process-fatal). On the remaining paths the three headers are set:
Content-Disposition with a generated filename, Content-Type from the
resolved extension, and Content-Length from `fmt.Sprintf("%d", fileSize)`
where `fileSize` is the `[]string` value `meta["Content-Length"]`. -/
def downloadHandler (objectName : String) (mimeOf : String → String)
    (ts : Nat) (rnd : Nat → Fin 62) (metaRes : Except OssErr ObjMeta)
    (bodyRes : Except OssErr (List Nat)) (copyOk : Bool) : Outcome :=
  let ext := resolveExt objectName
  match metaRes with
  | .error _ => .response ⟨500, [], [("message", .str "Failed to get object metadata")]⟩
  | .ok meta =>
    let fileSize := meta.get "Content-Length"
    match bodyRes with
    | .error e => .fatal ("Failed to get object: " ++ e.render)
    | .ok _ =>
      let filename := generateRandomFilename ts rnd ext
      let headers := [("Content-Disposition", "attachment; filename=" ++ filename),
                      ("Content-Type", mimeOf ext),
                      ("Content-Length", goSprintfDStrings fileSize)]
      if copyOk then
        .response ⟨200, headers,
          [("message", .str "File downloaded successfully"), ("file", .str filename)]⟩
      else
        .response ⟨500, headers, [("message", .str "Failed to send file to client")]⟩

/-- C4 evaluation at the failing input: downloading "a.txt" when the store
metadata reports Content-Length "5" sets the Content-Length response
header to the Go bad-verb rendering "[%!d(string=5)]" of the `[]string`
header value, not to the object's size "5". -/
theorem download_content_length_garbled :
    ∃ r, downloadHandler "a.txt" (fun _ => "text/plain; charset=utf-8") 1700000000
        (fun _ => (0 : Fin 62)) (.ok [("Content-Length", ["5"])])
        (.ok [10, 20, 30, 40, 50]) true = .response r ∧
      r.header "Content-Length" = some "[%!d(string=5)]" ∧
      r.header "Content-Length" ≠ some "5" := by
  refine ⟨_, rfl, by decide, by decide⟩

/-- C5: the generated download filename is the decimal Unix timestamp, an
underscore, exactly 10 characters drawn from the 62-character alphanumeric
charset, then the resolved extension — which is the key's extension, or
".bin" when the key has none. -/
theorem generated_filename_shape (ts : Nat) (rnd : Nat → Fin 62) (key : String) :
    ∃ body : List Char,
      generateRandomFilename ts rnd (resolveExt key) =
        toString ts ++ "_" ++ String.mk body ++ resolveExt key ∧
      body.length = 10 ∧
      (∀ c ∈ body, c ∈ charset) ∧
      resolveExt key = (if filepathExt key = "" then ".bin" else filepathExt key) := by
  refine ⟨randomBody rnd, rfl, by simp [randomBody], ?_, rfl⟩
  intro c hc
  simp only [randomBody, List.mem_map, List.mem_range] at hc
  obtain ⟨i, _, hi⟩ := hc
  exact List.mem_iff_get.mpr ⟨_, hi⟩

/-- C6: on a successful download the Content-Type response header is the
MIME-table entry for the key's resolved extension, and for a key with no
extension, when the environment's MIME table maps ".bin" to
"application/octet-stream" (as the standard system table does), the header
is that generic binary type. -/
theorem download_content_type (objectName : String) (mimeOf : String → String)
    (ts : Nat) (rnd : Nat → Fin 62) (meta : ObjMeta) (body : List Nat) (copyOk : Bool)
    (hbin : mimeOf ".bin" = "application/octet-stream") :
    ∃ r, downloadHandler objectName mimeOf ts rnd (.ok meta) (.ok body) copyOk =
        .response r ∧
      r.header "Content-Type" = some (mimeOf (resolveExt objectName)) ∧
      (filepathExt objectName = "" →
        r.header "Content-Type" = some "application/octet-stream") := by
  cases copyOk <;>
    exact ⟨_, rfl, by simp [HttpReply.header],
      fun hext => by simp [HttpReply.header, resolveExt, hext, hbin]⟩

/-- Witness for C6 at a concrete input: the key "noext" (no extension),
with a MIME table that maps ".bin" to "application/octet-stream". -/
theorem download_content_type_witness :
    ∃ r, downloadHandler "noext"
        (fun e => if e = ".bin" then "application/octet-stream" else "") 0
        (fun _ => (0 : Fin 62)) (.ok []) (.ok []) true = .response r ∧
      r.header "Content-Type" =
        some ((fun e => if e = ".bin" then "application/octet-stream" else "")
          (resolveExt "noext")) ∧
      (filepathExt "noext" = "" →
        r.header "Content-Type" = some "application/octet-stream") :=
  download_content_type "noext"
    (fun e => if e = ".bin" then "application/octet-stream" else "") 0
    (fun _ => (0 : Fin 62)) [] [] true (by decide)

/-- One page of `bucket.ListObjects`: the page's object keys, the
truncation flag and the continuation marker for the next call. -/
structure ListPage where
  objects : List String
  isTruncated : Bool
  nextMarker : String
deriving DecidableEq

/-- The 200 reply the list handler sends (src/main.go lines 211-215). -/
def listSuccess (objs : List String) : HttpReply :=
  ⟨200, [], [("status", .str "success"),
    ("message", .str "All objects have been listed"), ("objects", .arr objs)]⟩

/-- The `for` loop of `GET /list` (src/main.go lines 187-208), as a
function of the successive results the store returns to `ListObjects`:
each iteration consumes one result with the current marker, an error is
process-fatal (`log.Fatalf`), page keys are appended to the accumulator,
and the marker becomes the page's NextMarker exactly while IsTruncated
holds. `none` marks a run that exhausted the supplied results while the
loop still wanted more pages; the second component is the trace of store
calls, each recording the marker it was made with. -/
def listLoop : List (Except OssErr ListPage) → String → List String → List StoreCall →
    Option Outcome × List StoreCall
  | [], _, _, trace => (none, trace)
  | res :: rest, marker, acc, trace =>
    match res with
    | .error e => (some (.fatal ("Failed to list objects: " ++ e.render)),
                   trace ++ [.listObjects marker])
    | .ok page =>
      let acc2 := acc ++ page.objects
      if page.isTruncated then
        listLoop rest page.nextMarker acc2 (trace ++ [.listObjects marker])
      else
        (some (.response (listSuccess acc2)), trace ++ [.listObjects marker])

/-- Handler body of `GET /list` (src/main.go lines 183-217): the loop
started with the empty marker and an empty accumulator. -/
def listHandler (responses : List (Except OssErr ListPage)) :
    Option Outcome × List StoreCall :=
  listLoop responses "" [] []

theorem listLoop_all_truncated (ps : List ListPage) : ∀ (last : ListPage)
    (marker : String) (acc : List String) (trace : List StoreCall),
    (∀ p ∈ ps, p.isTruncated = true) → last.isTruncated = false →
    listLoop ((ps ++ [last]).map Except.ok) marker acc trace =
      (some (.response (listSuccess (acc ++ ((ps ++ [last]).map ListPage.objects).flatten))),
       trace ++ (marker :: ps.map ListPage.nextMarker).map StoreCall.listObjects) := by
  induction ps with
  | nil =>
    intro last marker acc trace _ hlast
    simp [listLoop, hlast]
  | cons p ps ih =>
    intro last marker acc trace htrunc hlast
    have hp : p.isTruncated = true := htrunc p (by simp)
    have htrunc2 : ∀ q ∈ ps, q.isTruncated = true := fun q hq => htrunc q (by simp [hq])
    simp only [List.cons_append, List.map_cons, listLoop, hp, if_true, List.append_eq]
    rw [ih last _ _ _ htrunc2 hlast]
    simp

/-- C3: for every run of pages the store returns — every page truncated
except a final untruncated one — the list operation starts from the empty
marker, follows each page's continuation marker exactly while the
truncation flag is set, stops at the first untruncated page, and responds
200 with the concatenation of all pages' keys in store order. -/
theorem list_follows_markers (ps : List ListPage) (last : ListPage)
    (htrunc : ∀ p ∈ ps, p.isTruncated = true) (hlast : last.isTruncated = false) :
    listHandler ((ps ++ [last]).map Except.ok) =
      (some (.response (listSuccess (((ps ++ [last]).map ListPage.objects).flatten))),
       ("" :: ps.map ListPage.nextMarker).map StoreCall.listObjects) := by
  have h := listLoop_all_truncated ps last "" [] [] htrunc hlast
  simpa [listHandler] using h

/-- Witness for C3 at a concrete input: a truncated page with keys "a",
"b" and marker "m1", then a final page with key "c". -/
theorem list_follows_markers_witness :
    listHandler (([(⟨["a", "b"], true, "m1"⟩ : ListPage)] ++
        [(⟨["c"], false, "m2"⟩ : ListPage)]).map Except.ok) =
      (some (.response (listSuccess ["a", "b", "c"])),
       [.listObjects "", .listObjects "m1"]) := by
  have h := list_follows_markers [⟨["a", "b"], true, "m1"⟩] ⟨["c"], false, "m2"⟩
    (by decide) rfl
  simpa using h

/-- C9: the error branches that call `log.Fatalf` — a failed
`file.Open()` on upload, a failed `GetObject` on download, a failed
`PutObject` on upload, and a failed `ListObjects` mid-pagination — end in
the process-fatal outcome, and a fatal outcome is never a sent response,
so the `c.JSON` error branches that follow those calls are unreachable. -/
theorem fatal_error_paths :
    (∀ (f : FormFile) (e : String) (putErr : Option OssErr),
      f.openResult = .error e →
      uploadHandler (some f) putErr = (.fatal ("Failed to open file: " ++ e), [])) ∧
    (∀ (objectName : String) (mimeOf : String → String) (ts : Nat)
      (rnd : Nat → Fin 62) (meta : ObjMeta) (e : OssErr) (copyOk : Bool),
      downloadHandler objectName mimeOf ts rnd (.ok meta) (.error e) copyOk =
        .fatal ("Failed to get object: " ++ e.render)) ∧
    (∀ (f : FormFile) (c : List Nat) (e : OssErr), f.openResult = .ok c →
      (uploadHandler (some f) (some e)).1 =
        .fatal ("Failed to fetch URL: " ++ e.render)) ∧
    (∀ (e : OssErr) (rest : List (Except OssErr ListPage)) (marker : String)
      (acc : List String) (trace : List StoreCall),
      (listLoop (.error e :: rest) marker acc trace).1 =
        some (.fatal ("Failed to list objects: " ++ e.render))) ∧
    (∀ (msg : String) (r : HttpReply), Outcome.fatal msg ≠ Outcome.response r) := by
  refine ⟨?_, ?_, ?_, ?_, ?_⟩
  · intro f e putErr hopen
    cases putErr <;> simp [uploadHandler, hopen]
  · intro objectName mimeOf ts rnd meta e copyOk; rfl
  · intro f c e hopen; simp [uploadHandler, hopen]
  · intro e rest marker acc trace; rfl
  · intro msg r h; exact Outcome.noConfusion h

/-- Witness for C9 at a concrete input: an upload whose file fails to
open with error "disk" is fatal and issues no store call. -/
theorem fatal_error_paths_witness :
    uploadHandler (some ⟨"a", .error "disk"⟩) none =
      (.fatal "Failed to open file: disk", []) :=
  fatal_error_paths.1 ⟨"a", .error "disk"⟩ "disk" none rfl

/-- Witness for C1 at a concrete input: a service error other than
NoSuchKey maps to a 500 with the store's error detail. -/
theorem isexist_status_mapping_witness :
    isexistHandler "a" (.error (.serviceError "Throttled" "busy")) =
      .response ⟨500, [], [("message", .str "Error checking object: busy")]⟩ :=
  (isexist_status_mapping "a").2.2.1 "Throttled" "busy" (by decide)

theorem listLoop_calls (rs : List (Except OssErr ListPage)) :
    ∀ (marker : String) (acc : List String) (trace : List StoreCall),
    ∀ call ∈ (listLoop rs marker acc trace).2,
      call ∈ trace ∨ ∃ m, call = .listObjects m := by
  induction rs with
  | nil => intro marker acc trace call hc; exact Or.inl hc
  | cons r rest ih =>
    intro marker acc trace call hc
    match r with
    | .error e =>
      simp only [listLoop, List.append_eq, List.mem_append, List.mem_singleton] at hc
      rcases hc with h | h
      · exact Or.inl h
      · exact Or.inr ⟨marker, h⟩
    | .ok page =>
      cases hp : page.isTruncated with
      | true =>
        simp only [listLoop, List.append_eq, hp, if_true] at hc
        rcases ih page.nextMarker (acc ++ page.objects)
            (trace ++ [.listObjects marker]) call hc with h | h
        · rcases List.mem_append.mp h with h2 | h2
          · exact Or.inl h2
          · exact Or.inr ⟨marker, List.mem_singleton.mp h2⟩
        · exact Or.inr h
      | false =>
        simp only [listLoop, List.append_eq, hp, Bool.false_eq_true, if_false,
          List.mem_append, List.mem_singleton] at hc
        rcases hc with h | h
        · exact Or.inl h
        · exact Or.inr ⟨marker, h⟩

theorem foldl_apply_queries (l : List StoreCall) :
    ∀ s : Store, (∀ c ∈ l, c.isMutation = false) → l.foldl StoreCall.apply s = s := by
  induction l with
  | nil => intro s _; rfl
  | cons c l ih =>
    intro s h
    have hc : c.isMutation = false := h c (by simp)
    have happ : StoreCall.apply s c = s := by
      cases c with
      | putObject k v => simp [StoreCall.isMutation] at hc
      | deleteObject k => simp [StoreCall.isMutation] at hc
      | getObjectMeta k => rfl
      | getObject k => rfl
      | listObjects m => rfl
    rw [List.foldl_cons, happ]
    exact ih s (fun d hd => h d (by simp [hd]))

/-- C10: the existence-check and list operations are read-only — every
store call they issue is a metadata or listing query, never a put or a
delete, and applying their call traces to the bucket leaves the stored
objects unchanged. -/
theorem isexist_list_readonly (s : Store) (name : String)
    (responses : List (Except OssErr ListPage)) :
    (∀ call ∈ (isexistOp s name).2, call.isMutation = false) ∧
    ((isexistOp s name).2.foldl StoreCall.apply s = s) ∧
    (∀ call ∈ (listHandler responses).2, call.isMutation = false) ∧
    ((listHandler responses).2.foldl StoreCall.apply s = s) := by
  have hlist : ∀ call ∈ (listHandler responses).2, call.isMutation = false := by
    intro call hc
    rcases listLoop_calls responses "" [] [] call hc with h | ⟨m, hm⟩
    · simp at h
    · rw [hm]; rfl
  refine ⟨?_, rfl, hlist, foldl_apply_queries _ s hlist⟩
  intro call hc
  simp only [isexistOp, List.mem_singleton] at hc
  rw [hc]; rfl
